import Mathlib

/-!
Verification of the airline-policy RAG retrieval engine.

A shallow embedding of the retrieval engine of the Airline-booking-assistant
repository: the offline ingestion pipeline (`backend/rag/ingest.py`) and the
online query path (`backend/rag/retriever.py`, with its caller
`_rag_lookup` in `backend/agent/tools_impl.py`).

Python strings are modelled as `List Char` (`Str`), Python lists as Lean
lists, FAISS positions as `Int` (with `-1` as the missing-result sentinel),
similarity scores as `ℚ`, and the embedding model plus FAISS index as an
abstract search oracle.  Fallible operations (Python exceptions such as
`IndexError`) are modelled with `Option`.
-/

/-- Python `str`, modelled as a list of characters. -/
abbrev Str := List Char

/-- Python's whitespace set for `str.strip()` (ASCII fragment). -/
def isPySpace (c : Char) : Bool :=
  c = ' ' || c = '\t' || c = '\n' || c = '\r' || c = '\x0b' || c = '\x0c'

/-- Python `s.strip()`: drop leading and trailing whitespace. -/
def pyStrip (s : Str) : Str :=
  ((s.dropWhile isPySpace).reverse.dropWhile isPySpace).reverse

/-- Python `s.lower()` (ASCII fragment, as used on the ASCII headings). -/
def pyLower (s : Str) : Str := s.map Char.toLower

/-- Python `s.lstrip("# ")`: drop leading characters drawn from `{'#', ' '}`. -/
def lstripHashSpace (s : Str) : Str :=
  s.dropWhile (fun c => c = '#' || c = ' ')

/-- Python substring containment `needle in hay`. -/
def containsSub (needle : Str) : Str → Bool
  | [] => needle.isEmpty
  | c :: t => needle.isPrefixOf (c :: t) || containsSub needle t

/-- Split a text on newline characters, as the line structure that
`re.MULTILINE` anchors and `str.splitlines` see on `\n`-separated text.
Always returns at least one (possibly empty) line. -/
def splitLines : Str → List Str
  | [] => [[]]
  | c :: cs =>
    match splitLines cs with
    | [] => [[c]]
    | l :: ls => if c = '\n' then [] :: l :: ls else (c :: l) :: ls

/-- Rejoin lines with newline characters; left inverse of `splitLines`. -/
def joinLines : List Str → Str
  | [] => []
  | [l] => l
  | l :: l' :: ls => l ++ '\n' :: joinLines (l' :: ls)

/-- A line matched by the lookahead `(?=^## .+)` of `chunk_markdown`:
it starts with `"## "` and has at least one further (non-newline) character. -/
def isHeadingLine (l : Str) : Bool :=
  match l with
  | '#' :: '#' :: ' ' :: _ :: _ => true
  | _ => false

/-- Group a document's lines into the segments produced by
`re.split(r"(?=^## .+)", text, re.MULTILINE)`: every heading line starts a
new segment; the first segment is the (possibly empty) leading content. -/
def splitAtHeadings : List Str → List (List Str)
  | [] => [[]]
  | l :: rest =>
    match splitAtHeadings rest with
    | [] => [[l]]
    | g :: gs => if isHeadingLine l then [] :: (l :: g) :: gs else (l :: g) :: gs

/-- `chunk_markdown` from `backend/rag/ingest.py`: split markdown at `## `
headings; strip each segment, skip empty segments, and pair each kept
segment with its heading, the segment's first line stripped of leading
`'#'`/`' '` characters and surrounding whitespace. -/
def chunk_markdown (text : Str) : List (Str × Str) :=
  (splitAtHeadings (splitLines text)).filterMap fun sec =>
    let s := pyStrip (joinLines sec)
    if s = [] then none
    else some (pyStrip (lstripHashSpace ((splitLines s).headD [])), s)

/-- `AIRLINE_FROM_STEM` from `backend/rag/ingest.py`: filename stem →
airline identifier. -/
def AIRLINE_FROM_STEM : List (Str × Str) :=
  [("emirates".data, "emirates".data),
   ("qatar_airways".data, "qatar_airways".data),
   ("pia".data, "pia".data)]

/-- `AIRLINE_FROM_STEM.get(stem, stem)` as used in `ingest`. -/
def airlineFromStem (stem : Str) : Str :=
  (AIRLINE_FROM_STEM.lookup stem).getD stem

/-- `POLICY_TYPE_KEYWORDS` from `backend/rag/ingest.py`, in source order. -/
def POLICY_TYPE_KEYWORDS : List (List Str × Str) :=
  [(["baggage".data, "allowance".data, "excess".data, "sports".data,
     "special".data], "baggage".data),
   (["cancellation".data, "cancel".data, "refund".data, "no-show".data,
     "no show".data], "cancellation".data),
   (["check-in".data, "check in".data, "online check".data], "check_in".data)]

/-- `CABIN_CLASS_KEYWORDS` from `backend/rag/ingest.py`, in source order. -/
def CABIN_CLASS_KEYWORDS : List (List Str × Str) :=
  [(["first class".data, "first".data], "first".data),
   (["business class".data, "business".data], "business".data),
   (["economy class".data, "economy".data], "economy".data)]

/-- Does any keyword of `kws` occur in the lowercased heading? -/
def kwMatch (kws : List Str) (heading : Str) : Bool :=
  kws.any fun kw => containsSub kw (pyLower heading)

/-- `_derive_policy_type` from `backend/rag/ingest.py`: first matching rule
of `POLICY_TYPE_KEYWORDS` wins; fallback `"general"`. -/
def derivePolicyType (heading : Str) : Str :=
  match POLICY_TYPE_KEYWORDS.find? (fun rule => kwMatch rule.1 heading) with
  | some rule => rule.2
  | none => "general".data

/-- `_derive_cabin_class` from `backend/rag/ingest.py`: first matching rule
of `CABIN_CLASS_KEYWORDS` wins; fallback `"all"`. -/
def deriveCabinClass (heading : Str) : Str :=
  match CABIN_CLASS_KEYWORDS.find? (fun rule => kwMatch rule.1 heading) with
  | some rule => rule.2
  | none => "all".data

/-! Section: Retriever (`backend/rag/retriever.py`) -/

/-- One persisted chunk-metadata record (`metadata.json` entry).  Fields are
`Option` because the retriever reads the record as a Python dict via
`.get` with a default; ingestion always populates all six keys. -/
structure Meta where
  id : Option Str
  airline : Option Str
  policy_type : Option Str
  cabin_class : Option Str
  source_file : Option Str
  heading : Option Str
deriving DecidableEq

/-- One result record produced by `query_policy`. -/
structure Rec where
  text : Str
  airline : Str
  policy_type : Str
  cabin_class : Str
  score : ℚ
deriving DecidableEq

/-- Round-half-to-even of `q * 10^4` — the rounding Python's `round(x, 4)`
performs — computed from the rational's numerator and denominator with
floor division so that it evaluates by kernel reduction. -/
def roundHalfEven4 (q : ℚ) : ℤ :=
  let n := q.num * 10000
  let d : ℤ := q.den
  let f := Int.fdiv n d
  let r := n - d * f
  if 2 * r < d then f
  else if d < 2 * r then f + 1
  else if f % 2 = 0 then f else f + 1

/-- Python `round(x, 4)`: round to 4 decimal places, ties to even. -/
def round4 (q : ℚ) : ℚ := mkRat (roundHalfEven4 q) 10000

/-- Python list indexing `l[i]` with an `int` index: negative indices count
from the end; out-of-range indexing raises (`none`). -/
def pyGet (l : List α) (i : ℤ) : Option α :=
  if i < 0 then
    let j := (l.length : ℤ) + i
    if j < 0 then none else l[j.toNat]?
  else l[i.toNat]?

/-- The result-assembly loop of `query_policy`: for each `(score, idx)` pair
returned by the index search, skip the FAISS sentinel `-1`, otherwise read
`_metadata[idx]` and `_texts[idx]` (an out-of-range read raises, i.e.
`none`) and append a record with `dict.get` fallbacks and rounded score. -/
def queryLoop (metadata : List Meta) (texts : List Str) :
    List (ℚ × ℤ) → Option (List Rec)
  | [] => some []
  | (score, idx) :: rest =>
    if idx = -1 then queryLoop metadata texts rest
    else do
      let meta ← pyGet metadata idx
      let text ← pyGet texts idx
      let recs ← queryLoop metadata texts rest
      some ({ text := text,
              airline := meta.airline.getD "unknown".data,
              policy_type := meta.policy_type.getD "general".data,
              cabin_class := meta.cabin_class.getD "all".data,
              score := round4 score } :: recs)

/-- `query_policy` from `backend/rag/retriever.py`.  The embedding model
plus FAISS `_index.search` are a black-box oracle `search` mapping the
question text and `n_results` to the zipped `(score, index)` pairs of the
search's first row. -/
def query_policy (search : Str → ℕ → List (ℚ × ℤ)) (metadata : List Meta)
    (texts : List Str) (question : Str) (n_results : ℕ) : Option (List Rec) :=
  queryLoop metadata texts (search question n_results)

/-- The query-text construction of `_rag_lookup`
(`backend/agent/tools_impl.py`): `f"{airline} {question}"` when an airline
hint is given, else the question unchanged. -/
def mkRagQuery (airline : Option Str) (question : Str) : Str :=
  match airline with
  | some a => a ++ ' ' :: question
  | none => question

/-- The retrieval step of `_rag_lookup`: query the store with the (possibly
airline-prefixed) question and `n_results=3`; no further filtering of the
returned chunks is performed before formatting. -/
def ragLookupChunks (search : Str → ℕ → List (ℚ × ℤ)) (metadata : List Meta)
    (texts : List Str) (question : Str) (airline : Option Str) :
    Option (List Rec) :=
  query_policy search metadata texts (mkRagQuery airline question) 3

/-! Section: Ingestion (`backend/rag/ingest.py`) -/

/-- A source policy document: filename stem and raw markdown text.
`ingest` processes the `*.md` files in lexicographically sorted order; the
input list here is that sorted list. -/
structure Doc where
  stem : Str
  text : Str
deriving DecidableEq

/-- `md_path.name` for a stem: the stem with the `.md` suffix. -/
def docFilename (d : Doc) : Str := d.stem ++ ".md".data

/-- The metadata dict `ingest` appends for one chunk.  `idStr` stands for
the freshly drawn `uuid.uuid4()` string. -/
def mkChunkMeta (idStr airline srcFile heading : Str) : Meta :=
  { id := some idStr,
    airline := some airline,
    policy_type := some (derivePolicyType heading),
    cabin_class := some (deriveCabinClass heading),
    source_file := some srcFile,
    heading := some heading }

/-- The persisted store: FAISS index vectors, `metadata.json` and
`texts.json`, aligned by position.  The vector type `V` is abstract. -/
structure Store (V : Type) where
  index : List V
  metadata : List Meta
  texts : List Str
deriving DecidableEq

/-- One iteration of the inner `for heading, chunk_text in chunks` loop of
`ingest`: append the chunk text to `all_texts` and its metadata dict to
`all_meta`.  The `ℕ` component counts chunks processed so far and feeds the
id supply `idOf`, which stands for the stream of `uuid.uuid4()` draws. -/
def ingestChunkStep (airline srcFile : Str) (idOf : ℕ → Str)
    (st : List Str × List Meta × ℕ) (hc : Str × Str) :
    List Str × List Meta × ℕ :=
  (st.1 ++ [hc.2],
   st.2.1 ++ [mkChunkMeta (idOf st.2.2) airline srcFile hc.1],
   st.2.2 + 1)

/-- One iteration of the outer `for md_path in md_files` loop of `ingest`:
derive the airline from the stem, chunk the document, and accumulate every
chunk. -/
def ingestDoc (idOf : ℕ → Str) (st : List Str × List Meta × ℕ) (d : Doc) :
    List Str × List Meta × ℕ :=
  (chunk_markdown d.text).foldl
    (ingestChunkStep (airlineFromStem d.stem) (docFilename d) idOf) st

/-- The full accumulation phase of `ingest` over the sorted document list. -/
def ingestAccum (idOf : ℕ → Str) (docs : List Doc) :
    List Str × List Meta × ℕ :=
  docs.foldl (ingestDoc idOf) ([], [], 0)

/-- `ingest` from `backend/rag/ingest.py`: raises (`none`) when no `.md`
files are found; otherwise accumulates all chunks, embeds every chunk text
in order (the batch `model.encode` call, modelled by mapping the black-box
embedding `embed`), builds a fresh index from the vectors in that order,
and persists all three artifacts. -/
def ingest {V : Type} (embed : Str → V) (idOf : ℕ → Str) (docs : List Doc) :
    Option (Store V) :=
  if docs.isEmpty then none
  else
    let acc := ingestAccum idOf docs
    some { index := acc.1.map embed, metadata := acc.2.1, texts := acc.1 }

/-- The chunk stream of a corpus: every document paired with each of its
`(heading, chunk_text)` chunks, in processing order. -/
def chunkStream (docs : List Doc) : List (Doc × Str × Str) :=
  docs.flatMap fun d => (chunk_markdown d.text).map fun hc => (d, hc)

/-- The metadata records of a chunk stream, with ids drawn from `idOf`
starting at counter `n`. -/
def metasFrom (idOf : ℕ → Str) : ℕ → List (Doc × Str × Str) → List Meta
  | _, [] => []
  | n, (d, hc) :: rest =>
    mkChunkMeta (idOf n) (airlineFromStem d.stem) (docFilename d) hc.1
      :: metasFrom idOf (n + 1) rest

/-! Section: Auxiliary definitions used by the theorems -/

/-- An all-absent metadata record (a position with every key missing). -/
def emptyMeta : Meta := ⟨none, none, none, none, none, none⟩

/-- The result record `query_policy` assembles for a non-sentinel
`(score, position)` pair whose position is in bounds. -/
def mkRecAt (metadata : List Meta) (texts : List Str) (p : ℚ × ℤ) : Rec :=
  let meta := metadata.getD p.2.toNat emptyMeta
  { text := texts.getD p.2.toNat [],
    airline := meta.airline.getD "unknown".data,
    policy_type := meta.policy_type.getD "general".data,
    cabin_class := meta.cabin_class.getD "all".data,
    score := round4 p.1 }

/-- The number of `## ` heading lines of a document. -/
def countHeadingLines (text : Str) : ℕ :=
  ((splitLines text).filter isHeadingLine).length

/-- Following the spec's words for the claimed ingestion fallback: the stem
"lowercased, with words joined by underscores" — for comparison with the
source's `airlineFromStem`. -/
def specLowerUnderscore (s : Str) : Str :=
  s.map fun c => if c = ' ' then '_' else c.toLower

/-- Concrete sample data used in witnesses and counterexamples. -/
def wMetaA : Meta :=
  ⟨some "a1".data, some "pia".data, some "baggage".data, some "economy".data,
   some "pia.md".data, some "Checked Baggage".data⟩

def wMetaB : Meta :=
  ⟨some "b2".data, some "emirates".data, some "cancellation".data,
   some "all".data, some "emirates.md".data, some "Refunds".data⟩

def wTextA : Str := "PIA baggage text".data

def wTextB : Str := "Emirates refund text".data

/-- A sample search oracle: one in-bounds hit, one sentinel, one more hit. -/
def wSearch : Str → ℕ → List (ℚ × ℤ) :=
  fun _ _ => [(mkRat 3 4, 1), (mkRat 1 1, -1), (mkRat 1 2, 0)]

/-- A sample document producing one chunk. -/
def docAlpha : Doc := ⟨"alpha".data, "## Alpha Section\nbody".data⟩

/-- A whitespace-only sample document: it yields zero chunks. -/
def docBlank : Doc := ⟨"blank".data, "   \n  ".data⟩

/-! Section: Characterization of the ingest accumulation -/

theorem metasFrom_append (idOf : ℕ → Str) (s t : List (Doc × Str × Str)) :
    ∀ n, metasFrom idOf n (s ++ t)
      = metasFrom idOf n s ++ metasFrom idOf (n + s.length) t := by
  induction s with
  | nil => intro n; simp [metasFrom]
  | cons x s ih =>
    intro n
    simp only [List.cons_append, metasFrom, List.append_eq, ih (n + 1),
      List.length_cons]
    rw [show n + 1 + s.length = n + (s.length + 1) from by omega]

theorem metasFrom_length (idOf : ℕ → Str) (s : List (Doc × Str × Str)) :
    ∀ n, (metasFrom idOf n s).length = s.length := by
  induction s with
  | nil => intro n; simp [metasFrom]
  | cons x s ih => intro n; simp [metasFrom, ih]

theorem metasFrom_getElem? (idOf : ℕ → Str) (s : List (Doc × Str × Str)) :
    ∀ n i, (metasFrom idOf n s)[i]?
      = (s[i]?).map fun x =>
          mkChunkMeta (idOf (n + i)) (airlineFromStem x.1.stem)
            (docFilename x.1) x.2.1 := by
  induction s with
  | nil => intro n i; simp [metasFrom]
  | cons x s ih =>
    intro n i
    cases i with
    | zero => simp [metasFrom]
    | succ j =>
      simp only [metasFrom, List.getElem?_cons_succ, ih (n + 1) j]
      rw [show n + 1 + j = n + (j + 1) from by omega]

theorem foldl_ingestChunkStep (d : Doc) (idOf : ℕ → Str)
    (chunks : List (Str × Str)) :
    ∀ texts metas n,
      chunks.foldl
        (ingestChunkStep (airlineFromStem d.stem) (docFilename d) idOf)
        (texts, metas, n)
      = (texts ++ chunks.map Prod.snd,
         metas ++ metasFrom idOf n (chunks.map fun hc => (d, hc)),
         n + chunks.length) := by
  induction chunks with
  | nil => intro texts metas n; simp [metasFrom]
  | cons hc t ih =>
    intro texts metas n
    simp only [List.foldl_cons, ingestChunkStep, ih, List.map_cons, metasFrom,
      List.length_cons, Prod.mk.injEq]
    refine ⟨by simp, by simp [metasFrom], by omega⟩

theorem foldl_ingestDoc (idOf : ℕ → Str) (docs : List Doc) :
    ∀ texts metas n,
      docs.foldl (ingestDoc idOf) (texts, metas, n)
      = (texts ++ (chunkStream docs).map (fun x => x.2.2),
         metas ++ metasFrom idOf n (chunkStream docs),
         n + (chunkStream docs).length) := by
  induction docs with
  | nil => intro texts metas n; simp [chunkStream, metasFrom]
  | cons d rest ih =>
    intro texts metas n
    simp only [List.foldl_cons, ingestDoc, foldl_ingestChunkStep, ih,
      chunkStream, List.flatMap_cons, List.map_append, List.map_map,
      metasFrom_append, List.length_append, List.length_map, Prod.mk.injEq]
    refine ⟨by simp [Function.comp], by simp [List.append_assoc], by omega⟩

theorem ingestAccum_eq (idOf : ℕ → Str) (docs : List Doc) :
    ingestAccum idOf docs
      = ((chunkStream docs).map (fun x => x.2.2),
         metasFrom idOf 0 (chunkStream docs),
         (chunkStream docs).length) := by
  simpa using foldl_ingestDoc idOf docs [] [] 0

/-! Section: Characterization of the query loop -/

/-- When every non-sentinel position is in bounds for both arrays, the
query loop succeeds and returns, in search order, one record per
non-sentinel pair, assembled from both arrays at that position. -/
theorem queryLoop_eq (metadata : List Meta) (texts : List Str)
    (pairs : List (ℚ × ℤ))
    (hb : ∀ p ∈ pairs, p.2 ≠ -1 →
      0 ≤ p.2 ∧ p.2.toNat < metadata.length ∧ p.2.toNat < texts.length) :
    queryLoop metadata texts pairs
      = some ((pairs.filter fun p => p.2 != -1).map (mkRecAt metadata texts)) := by
  induction pairs with
  | nil => simp [queryLoop]
  | cons p rest ih =>
    obtain ⟨s, i⟩ := p
    by_cases hi : i = -1
    · subst hi
      simp only [queryLoop, if_pos rfl]
      rw [ih fun q hq hq' => hb q (List.mem_cons_of_mem _ hq) hq']
      simp [List.filter_cons]
    · obtain ⟨h0, hm, ht⟩ := hb (s, i) (List.mem_cons_self _ _) hi
      simp only [queryLoop, if_neg hi]
      rw [ih fun q hq hq' => hb q (List.mem_cons_of_mem _ hq) hq']
      rw [pyGet, if_neg (by omega : ¬ i < 0), List.getElem?_eq_getElem hm]
      rw [pyGet, if_neg (by omega : ¬ i < 0), List.getElem?_eq_getElem ht]
      simp only [Option.bind_eq_bind, Option.some_bind, Option.some.injEq]
      rw [List.filter_cons_of_pos (by simpa [bne_iff_ne] using hi)]
      simp [mkRecAt, List.getD_eq_getElem, hm, ht]

/-! Section: Characterization of the chunker -/

theorem splitLines_ne_nil (cs : Str) : splitLines cs ≠ [] := by
  cases cs with
  | nil => simp [splitLines]
  | cons c cs =>
    simp only [splitLines]
    cases h : splitLines cs with
    | nil => simp
    | cons l ls =>
      by_cases hc : c = '\n' <;> simp [hc]

theorem joinLines_splitLines (cs : Str) : joinLines (splitLines cs) = cs := by
  induction cs with
  | nil => rfl
  | cons c cs ih =>
    simp only [splitLines]
    cases h : splitLines cs with
    | nil => exact absurd h (splitLines_ne_nil cs)
    | cons l ls =>
      rw [h] at ih
      by_cases hc : c = '\n'
      · subst hc
        simp only [if_pos rfl, joinLines]
        cases ls with
        | nil => simpa [joinLines] using ih
        | cons l' ls' => simpa [joinLines] using ih
      · simp only [if_neg hc]
        cases ls with
        | nil => simpa [joinLines] using congrArg (c :: ·) ih
        | cons l' ls' => simpa [joinLines] using congrArg (c :: ·) ih

theorem splitAtHeadings_ne_nil (ls : List Str) : splitAtHeadings ls ≠ [] := by
  cases ls with
  | nil => simp [splitAtHeadings]
  | cons l rest =>
    simp only [splitAtHeadings]
    cases h : splitAtHeadings rest with
    | nil => simp
    | cons g gs => by_cases hl : isHeadingLine l <;> simp [hl]

theorem splitAtHeadings_length (ls : List Str) :
    (splitAtHeadings ls).length = (ls.filter isHeadingLine).length + 1 := by
  induction ls with
  | nil => simp [splitAtHeadings]
  | cons l rest ih =>
    simp only [splitAtHeadings]
    cases h : splitAtHeadings rest with
    | nil => exact absurd h (splitAtHeadings_ne_nil rest)
    | cons g gs =>
      rw [h] at ih
      by_cases hl : isHeadingLine l <;>
        simp [hl, List.filter_cons] at ih ⊢ <;> omega

theorem splitAtHeadings_no_heading (ls : List Str)
    (h : ∀ l ∈ ls, isHeadingLine l = false) : splitAtHeadings ls = [ls] := by
  induction ls with
  | nil => rfl
  | cons l rest ih =>
    simp only [splitAtHeadings]
    rw [ih fun x hx => h x (List.mem_cons_of_mem _ hx)]
    simp [h l (List.mem_cons_self _ _)]

/-! Section: First-match unrolling of the metadata derivers -/

theorem derivePolicyType_ite (h : Str) :
    derivePolicyType h =
      if kwMatch ["baggage".data, "allowance".data, "excess".data,
          "sports".data, "special".data] h then "baggage".data
      else if kwMatch ["cancellation".data, "cancel".data, "refund".data,
          "no-show".data, "no show".data] h then "cancellation".data
      else if kwMatch ["check-in".data, "check in".data,
          "online check".data] h then "check_in".data
      else "general".data := by
  simp only [derivePolicyType, POLICY_TYPE_KEYWORDS, List.find?]
  by_cases h1 : kwMatch ["baggage".data, "allowance".data, "excess".data,
      "sports".data, "special".data] h <;>
    by_cases h2 : kwMatch ["cancellation".data, "cancel".data, "refund".data,
      "no-show".data, "no show".data] h <;>
    by_cases h3 : kwMatch ["check-in".data, "check in".data,
      "online check".data] h <;>
  simp [h1, h2, h3]

theorem deriveCabinClass_ite (h : Str) :
    deriveCabinClass h =
      if kwMatch ["first class".data, "first".data] h then "first".data
      else if kwMatch ["business class".data, "business".data] h then
        "business".data
      else if kwMatch ["economy class".data, "economy".data] h then
        "economy".data
      else "all".data := by
  simp only [deriveCabinClass, CABIN_CLASS_KEYWORDS, List.find?]
  by_cases h1 : kwMatch ["first class".data, "first".data] h <;>
    by_cases h2 : kwMatch ["business class".data, "business".data] h <;>
    by_cases h3 : kwMatch ["economy class".data, "economy".data] h <;>
  simp [h1, h2, h3]

/-! Section: Claim theorems -/

/-- Claim C2: for every question and every `(score, position)` pair the
index search returns with a valid (non-sentinel) position `p`,
`query_policy` assembles the result record from `texts[p]` and
`metadata[p]` at that same position, the output preserves the order in
which the search returned the pairs, and each record's score equals the
raw score rounded to 4 decimal places. -/
theorem query_policy_positional_join (search : Str → ℕ → List (ℚ × ℤ))
    (metadata : List Meta) (texts : List Str) (question : Str) (n : ℕ)
    (hb : ∀ p ∈ search question n, p.2 ≠ -1 →
      0 ≤ p.2 ∧ p.2.toNat < metadata.length ∧ p.2.toNat < texts.length) :
    query_policy search metadata texts question n
      = some (((search question n).filter fun p => p.2 != -1).map fun p =>
          { text := texts.getD p.2.toNat [],
            airline := (metadata.getD p.2.toNat emptyMeta).airline.getD
              "unknown".data,
            policy_type := (metadata.getD p.2.toNat emptyMeta).policy_type.getD
              "general".data,
            cabin_class := (metadata.getD p.2.toNat emptyMeta).cabin_class.getD
              "all".data,
            score := round4 p.1 }) :=
  queryLoop_eq metadata texts (search question n) hb

theorem query_policy_positional_join_witness :
    (∀ p ∈ wSearch "q".data 3, p.2 ≠ -1 →
      0 ≤ p.2 ∧ p.2.toNat < [wMetaA, wMetaB].length
        ∧ p.2.toNat < [wTextA, wTextB].length)
    ∧ query_policy wSearch [wMetaA, wMetaB] [wTextA, wTextB] "q".data 3
      = some [⟨wTextB, "emirates".data, "cancellation".data, "all".data,
              mkRat 3 4⟩,
              ⟨wTextA, "pia".data, "baggage".data, "economy".data,
              mkRat 1 2⟩] :=
  ⟨by decide,
   (query_policy_positional_join wSearch [wMetaA, wMetaB] [wTextA, wTextB]
     "q".data 3 (by decide)).trans (by decide)⟩

/-- Claim C8: for every question and positive `top_k`, `query_policy`
returns exactly `min top_k (number of valid positions)` records, never
more than `top_k`; fewer than `top_k` results, or zero, is not an error —
the result is simply a shorter (possibly empty) list. -/
theorem query_policy_topk_bound (search : Str → ℕ → List (ℚ × ℤ))
    (metadata : List Meta) (texts : List Str) (question : Str) (n : ℕ)
    (_hn : 0 < n) (hlen : (search question n).length ≤ n)
    (hb : ∀ p ∈ search question n, p.2 ≠ -1 →
      0 ≤ p.2 ∧ p.2.toNat < metadata.length ∧ p.2.toNat < texts.length) :
    ∃ recs, query_policy search metadata texts question n = some recs
      ∧ recs.length
          = min n (((search question n).filter fun p => p.2 != -1).length)
      ∧ recs.length ≤ n := by
  refine ⟨_, queryLoop_eq metadata texts (search question n) hb, ?_, ?_⟩ <;>
    · simp only [List.length_map]
      have := List.length_filter_le (fun p : ℚ × ℤ => p.2 != -1)
        (search question n)
      omega

theorem query_policy_topk_bound_witness :
    0 < 3 ∧ (wSearch "q".data 3).length ≤ 3
    ∧ (∀ p ∈ wSearch "q".data 3, p.2 ≠ -1 →
        0 ≤ p.2 ∧ p.2.toNat < [wMetaA, wMetaB].length
          ∧ p.2.toNat < [wTextA, wTextB].length)
    ∧ ∃ recs,
        query_policy wSearch [wMetaA, wMetaB] [wTextA, wTextB] "q".data 3
          = some recs
        ∧ recs.length
            = min 3 (((wSearch "q".data 3).filter fun p => p.2 != -1).length)
        ∧ recs.length ≤ 3 :=
  ⟨by decide, by decide, by decide,
   query_policy_topk_bound wSearch [wMetaA, wMetaB] [wTextA, wTextB]
     "q".data 3 (by decide) (by decide) (by decide)⟩

/-- Claim C9, counterexample: at the valid position 0 the metadata record
is fully populated but the text entry is absent (the texts array is
empty); `query_policy` then fails the query (Python `IndexError`, here
`none`) instead of substituting a fallback and returning a record. -/
theorem query_policy_missing_text_fails_cex :
    query_policy (fun _ _ => [(mkRat 1 1, 0)]) [wMetaA] [] "q".data 3
      = none := by decide

/-- Claim C9 (amended): for an in-bounds position whose metadata record
lacks the airline / policy_type / cabin_class keys, `query_policy`
substitutes the documented fallback labels and still returns a record;
but an absent text entry at a valid position fails the whole query
rather than being defaulted. -/
theorem query_policy_fallback_labels (score : ℚ) (m : Meta) (t : Str)
    (search : Str → ℕ → List (ℚ × ℤ)) (question : Str) (n : ℕ)
    (ha : m.airline = none) (hp : m.policy_type = none)
    (hc : m.cabin_class = none) (hs : search question n = [(score, 0)]) :
    query_policy search [m] [t] question n
      = some [{ text := t, airline := "unknown".data,
                policy_type := "general".data, cabin_class := "all".data,
                score := round4 score }]
    ∧ query_policy search [m] [] question n = none := by
  constructor
  · rw [query_policy, hs]
    simp [queryLoop, pyGet, ha, hp, hc]
  · rw [query_policy, hs]
    simp [queryLoop, pyGet]

theorem query_policy_fallback_labels_witness :
    emptyMeta.airline = none ∧ emptyMeta.policy_type = none
    ∧ emptyMeta.cabin_class = none
    ∧ (fun (_ : Str) (_ : ℕ) => [(mkRat 1 2, (0 : ℤ))]) "q".data 3
        = [(mkRat 1 2, 0)]
    ∧ (query_policy (fun _ _ => [(mkRat 1 2, 0)]) [emptyMeta] [wTextA]
          "q".data 3
        = some [{ text := wTextA, airline := "unknown".data,
                  policy_type := "general".data, cabin_class := "all".data,
                  score := round4 (mkRat 1 2) }]
      ∧ query_policy (fun _ _ => [(mkRat 1 2, 0)]) [emptyMeta] [] "q".data 3
        = none) :=
  ⟨rfl, rfl, rfl, rfl,
   query_policy_fallback_labels (mkRat 1 2) emptyMeta wTextA
     (fun _ _ => [(mkRat 1 2, 0)]) "q".data 3 rfl rfl rfl rfl⟩

/-- Claim C10: `query_policy` guards only the exact sentinel `-1`; under
the alignment precondition (every non-sentinel position is nonnegative and
within both arrays), every array access is in bounds and the
out-of-bounds error branch is unreachable (the query returns `some`).
No other bounds check exists: a negative position other than `-1` is not
rejected — Python indexing resolves `-2` to the second-to-last element,
as the second conjunct shows on a two-chunk store. -/
theorem query_policy_bounds_safety :
    (∀ (search : Str → ℕ → List (ℚ × ℤ)) (metadata : List Meta)
        (texts : List Str) (question : Str) (n : ℕ),
      (∀ p ∈ search question n, p.2 ≠ -1 →
        0 ≤ p.2 ∧ p.2.toNat < metadata.length ∧ p.2.toNat < texts.length) →
      ∃ recs, query_policy search metadata texts question n = some recs)
    ∧ queryLoop [wMetaA, wMetaB] [wTextA, wTextB] [(mkRat 1 2, -2)]
        = some [⟨wTextA, "pia".data, "baggage".data, "economy".data,
                mkRat 1 2⟩] :=
  ⟨fun search metadata texts question n hb =>
    ⟨_, queryLoop_eq metadata texts (search question n) hb⟩,
   by decide⟩

theorem query_policy_bounds_safety_witness :
    (∀ p ∈ wSearch "q".data 3, p.2 ≠ -1 →
      0 ≤ p.2 ∧ p.2.toNat < [wMetaA, wMetaB].length
        ∧ p.2.toNat < [wTextA, wTextB].length)
    ∧ ∃ recs, query_policy wSearch [wMetaA, wMetaB] [wTextA, wTextB]
        "q".data 3 = some recs :=
  ⟨by decide,
   query_policy_bounds_safety.1 wSearch [wMetaA, wMetaB] [wTextA, wTextB]
     "q".data 3 (by decide)⟩

/-- Claim C7: the hinted lookup queries the store with the hint prepended
as a space-separated prefix to the question before embedding, and applies
no hard filter on the airline field: its chunks are exactly the unfiltered
similarity-search results over the prefixed text.  The second conjunct
shows a chunk of a different airline (`pia`) being returned under an
`emirates` hint. -/
theorem rag_lookup_soft_bias :
    (∀ (search : Str → ℕ → List (ℚ × ℤ)) (metadata : List Meta)
        (texts : List Str) (question hint : Str),
      ragLookupChunks search metadata texts question (some hint)
        = query_policy search metadata texts (hint ++ ' ' :: question) 3)
    ∧ ragLookupChunks (fun _ _ => [(mkRat 9 10, 0)]) [wMetaA] [wTextA]
        "baggage rules".data (some "emirates".data)
      = some [⟨wTextA, "pia".data, "baggage".data, "economy".data,
              mkRat 9 10⟩] :=
  ⟨fun _ _ _ _ _ => rfl, by decide⟩

/-- Claim C4, counterexample: leading content before the first `## `
heading is not discarded — `"Title"` becomes a chunk of its own — and a
document with no `## ` heading lines but non-whitespace content produces
one chunk, not zero. -/
theorem chunk_markdown_preamble_kept_cex :
    chunk_markdown "Title\n\n## A\nbody".data
        = [("Title".data, "Title".data), ("A".data, "## A\nbody".data)]
    ∧ chunk_markdown "just text".data
        = [("just text".data, "just text".data)] := by decide

/-- Claim C4 (amended): `chunk_markdown` returns at most one pair per
`## ` heading line plus at most one extra pair for the leading content
before the first heading; leading non-whitespace content is kept as an
initial chunk rather than discarded.  A document with no `## ` heading
lines produces zero chunks exactly when it is entirely whitespace, and
otherwise exactly one chunk: the whole stripped document, its heading the
first line stripped of leading `'#'`/`' '` characters. -/
theorem chunk_markdown_section_count :
    (∀ text : Str, (chunk_markdown text).length ≤ countHeadingLines text + 1)
    ∧ (∀ text : Str, countHeadingLines text = 0 →
        chunk_markdown text
          = if pyStrip text = [] then []
            else [(pyStrip (lstripHashSpace
                     ((splitLines (pyStrip text)).headD [])),
                   pyStrip text)]) := by
  constructor
  · intro text
    have h1 := splitAtHeadings_length (splitLines text)
    have h2 := List.length_filterMap_le
      (fun sec =>
        let s := pyStrip (joinLines sec)
        if s = [] then none
        else some (pyStrip (lstripHashSpace ((splitLines s).headD [])), s))
      (splitAtHeadings (splitLines text))
    unfold chunk_markdown countHeadingLines
    omega
  · intro text h0
    have hnil : (splitLines text).filter isHeadingLine = [] :=
      List.length_eq_zero.mp h0
    have hall : ∀ l ∈ splitLines text, isHeadingLine l = false := by
      intro l hl
      by_contra hln
      have ht : isHeadingLine l = true := by
        cases h' : isHeadingLine l
        · exact absurd h' hln
        · rfl
      have hmem : l ∈ (splitLines text).filter isHeadingLine :=
        List.mem_filter.mpr ⟨hl, ht⟩
      rw [hnil] at hmem
      exact absurd hmem (List.not_mem_nil l)
    unfold chunk_markdown
    rw [splitAtHeadings_no_heading _ hall]
    by_cases hs : pyStrip text = [] <;>
      simp [List.filterMap_cons, joinLines_splitLines, hs]

theorem chunk_markdown_section_count_witness :
    countHeadingLines "hello world".data = 0
    ∧ chunk_markdown "hello world".data
      = (if pyStrip "hello world".data = [] then []
         else [(pyStrip (lstripHashSpace
                  ((splitLines (pyStrip "hello world".data)).headD [])),
                pyStrip "hello world".data)]) :=
  ⟨by decide, chunk_markdown_section_count.2 "hello world".data (by decide)⟩

/-- Claim C5, counterexample: for a stem outside the lookup table the
airline field is the stem verbatim, not the stem lowercased with words
joined by underscores as claimed. -/
theorem airline_fallback_not_normalized_cex :
    airlineFromStem "My Airline".data = "My Airline".data
    ∧ specLowerUnderscore "My Airline".data = "my_airline".data
    ∧ airlineFromStem "My Airline".data
        ≠ specLowerUnderscore "My Airline".data := by decide

/-- Claim C5 (amended): for every stem in the lookup table the chunk's
airline field is the table's value; for every other stem it is the stem
itself, verbatim — no lowercasing and no underscore substitution is
applied. -/
theorem airline_from_stem_table_or_verbatim :
    (∀ stem v : Str, AIRLINE_FROM_STEM.lookup stem = some v →
      airlineFromStem stem = v)
    ∧ (∀ stem : Str, AIRLINE_FROM_STEM.lookup stem = none →
      airlineFromStem stem = stem) := by
  constructor
  · intro stem v h
    simp [airlineFromStem, h]
  · intro stem h
    simp [airlineFromStem, h]

theorem airline_from_stem_table_or_verbatim_witness :
    (AIRLINE_FROM_STEM.lookup "qatar_airways".data = some "qatar_airways".data
      ∧ airlineFromStem "qatar_airways".data = "qatar_airways".data)
    ∧ (AIRLINE_FROM_STEM.lookup "boeing stem".data = none
      ∧ airlineFromStem "boeing stem".data = "boeing stem".data) :=
  ⟨⟨by decide, airline_from_stem_table_or_verbatim.1 _ _ (by decide)⟩,
   ⟨by decide, airline_from_stem_table_or_verbatim.2 _ (by decide)⟩⟩

/-- Claim C6: metadata derivation is a pure first-match-wins evaluation of
the ordered rule lists over the lowercased heading, with fallbacks
`general` and `all`; in particular the three documented example headings
derive the documented labels. -/
theorem derive_metadata_first_match :
    (derivePolicyType "Checked Baggage Allowance".data = "baggage".data
      ∧ derivePolicyType "Business Class Refunds".data = "cancellation".data
      ∧ deriveCabinClass "Business Class Refunds".data = "business".data
      ∧ derivePolicyType "General Terms".data = "general".data
      ∧ deriveCabinClass "General Terms".data = "all".data)
    ∧ (∀ h : Str,
        (kwMatch ["baggage".data, "allowance".data, "excess".data,
            "sports".data, "special".data] h = true →
          derivePolicyType h = "baggage".data)
      ∧ (kwMatch ["baggage".data, "allowance".data, "excess".data,
            "sports".data, "special".data] h = false →
         kwMatch ["cancellation".data, "cancel".data, "refund".data,
            "no-show".data, "no show".data] h = true →
          derivePolicyType h = "cancellation".data)
      ∧ (kwMatch ["baggage".data, "allowance".data, "excess".data,
            "sports".data, "special".data] h = false →
         kwMatch ["cancellation".data, "cancel".data, "refund".data,
            "no-show".data, "no show".data] h = false →
         kwMatch ["check-in".data, "check in".data, "online check".data] h
            = true →
          derivePolicyType h = "check_in".data)
      ∧ (kwMatch ["baggage".data, "allowance".data, "excess".data,
            "sports".data, "special".data] h = false →
         kwMatch ["cancellation".data, "cancel".data, "refund".data,
            "no-show".data, "no show".data] h = false →
         kwMatch ["check-in".data, "check in".data, "online check".data] h
            = false →
          derivePolicyType h = "general".data))
    ∧ (∀ h : Str,
        (kwMatch ["first class".data, "first".data] h = true →
          deriveCabinClass h = "first".data)
      ∧ (kwMatch ["first class".data, "first".data] h = false →
         kwMatch ["business class".data, "business".data] h = true →
          deriveCabinClass h = "business".data)
      ∧ (kwMatch ["first class".data, "first".data] h = false →
         kwMatch ["business class".data, "business".data] h = false →
         kwMatch ["economy class".data, "economy".data] h = true →
          deriveCabinClass h = "economy".data)
      ∧ (kwMatch ["first class".data, "first".data] h = false →
         kwMatch ["business class".data, "business".data] h = false →
         kwMatch ["economy class".data, "economy".data] h = false →
          deriveCabinClass h = "all".data)) := by
  refine ⟨by decide, ?_, ?_⟩
  · intro h
    refine ⟨fun h1 => ?_, fun h1 h2 => ?_, fun h1 h2 h3 => ?_,
      fun h1 h2 h3 => ?_⟩ <;> simp [derivePolicyType_ite, *]
  · intro h
    refine ⟨fun h1 => ?_, fun h1 h2 => ?_, fun h1 h2 h3 => ?_,
      fun h1 h2 h3 => ?_⟩ <;> simp [deriveCabinClass_ite, *]

theorem derive_metadata_first_match_witness :
    kwMatch ["baggage".data, "allowance".data, "excess".data, "sports".data,
        "special".data] "No-Show Policy".data = false
    ∧ kwMatch ["cancellation".data, "cancel".data, "refund".data,
        "no-show".data, "no show".data] "No-Show Policy".data = true
    ∧ derivePolicyType "No-Show Policy".data = "cancellation".data :=
  ⟨by decide, by decide,
   (derive_metadata_first_match.2.1 "No-Show Policy".data).2.1
     (by decide) (by decide)⟩

/-- Claim C1: during ingest, each chunk appends exactly one text and one
metadata record in lockstep (equal lengths are preserved at every step);
the embedding batch is the accumulated texts in order, the index holds
those vectors in that order, and for every position `i` the index vector,
metadata record and text all come from the same element of the chunk
stream. -/
theorem ingest_parallel_arrays_aligned {V : Type} (embed : Str → V)
    (idOf : ℕ → Str) (docs : List Doc) (st : Store V)
    (h : ingest embed idOf docs = some st) :
    (∀ (airline srcFile : Str) (s : List Str × List Meta × ℕ)
        (hc : Str × Str),
        (ingestChunkStep airline srcFile idOf s hc).1 = s.1 ++ [hc.2]
      ∧ (ingestChunkStep airline srcFile idOf s hc).2.1
          = s.2.1 ++ [mkChunkMeta (idOf s.2.2) airline srcFile hc.1]
      ∧ ((ingestChunkStep airline srcFile idOf s hc).1.length
          = (ingestChunkStep airline srcFile idOf s hc).2.1.length
            ↔ s.1.length = s.2.1.length))
    ∧ st.texts = (chunkStream docs).map (fun x => x.2.2)
    ∧ st.metadata = metasFrom idOf 0 (chunkStream docs)
    ∧ st.metadata.length = st.texts.length
    ∧ st.index = st.texts.map embed
    ∧ (∀ i : ℕ,
        st.index[i]? = (st.texts[i]?).map embed
      ∧ st.texts[i]? = ((chunkStream docs)[i]?).map (fun x => x.2.2)
      ∧ st.metadata[i]? = ((chunkStream docs)[i]?).map
          (fun x => mkChunkMeta (idOf i) (airlineFromStem x.1.stem)
            (docFilename x.1) x.2.1)) := by
  unfold ingest at h
  split at h
  · exact absurd h (by simp)
  · have hst := (Option.some.inj h).symm
    subst hst
    rw [ingestAccum_eq]
    refine ⟨?_, rfl, rfl, ?_, rfl, ?_⟩
    · intro airline srcFile s hc
      refine ⟨rfl, rfl, ?_⟩
      simp [ingestChunkStep]
    · simp [metasFrom_length]
    · intro i
      refine ⟨List.getElem?_map .., List.getElem?_map .., ?_⟩
      simpa using metasFrom_getElem? idOf (chunkStream docs) 0 i

theorem ingest_parallel_arrays_aligned_witness :
    ingest (fun t => t.length) (fun _ => ([] : Str)) [docAlpha, docBlank]
        = some ((ingest (fun t => t.length) (fun _ => ([] : Str))
            [docAlpha, docBlank]).getD ⟨[], [], []⟩)
    ∧ ((ingest (fun t => t.length) (fun _ => ([] : Str))
          [docAlpha, docBlank]).getD ⟨[], [], []⟩).metadata.length
        = ((ingest (fun t => t.length) (fun _ => ([] : Str))
            [docAlpha, docBlank]).getD ⟨[], [], []⟩).texts.length :=
  ⟨by decide,
   (ingest_parallel_arrays_aligned (fun t => t.length) (fun _ => ([] : Str))
     [docAlpha, docBlank] _ (by decide)).2.2.2.1⟩

/-- Claim C3, counterexample: the whitespace-only document `docBlank`
yields zero chunks, yet ingestion of `[docAlpha, docBlank]` completes
(returns `some`) and the store simply omits the empty document's chunks —
it does not abort. -/
theorem ingest_zero_chunk_doc_not_fatal_cex :
    chunk_markdown docBlank.text = []
    ∧ (ingest (fun t => t.length) (fun _ => ([] : Str))
        [docAlpha, docBlank]).isSome = true
    ∧ (ingest (fun t => t.length) (fun _ => ([] : Str))
        [docAlpha, docBlank]).map Store.texts
      = some ["## Alpha Section\nbody".data] := by decide

/-- Claim C3 (amended): a document yielding zero chunks does not abort
ingestion; the run continues and produces exactly the store it would have
produced without that document.  Only an empty document list is fatal
(the `FileNotFoundError` branch). -/
theorem ingest_skips_zero_chunk_doc {V : Type} (embed : Str → V)
    (idOf : ℕ → Str) (pre post : List Doc) (d : Doc)
    (hd : chunk_markdown d.text = []) (hne : pre ++ post ≠ []) :
    ingest embed idOf (pre ++ d :: post) = ingest embed idOf (pre ++ post) := by
  have hcs : chunkStream (pre ++ d :: post) = chunkStream (pre ++ post) := by
    simp [chunkStream, hd]
  unfold ingest
  have h1 : (pre ++ d :: post).isEmpty = false := by
    simp [List.isEmpty_iff]
  have h2 : (pre ++ post).isEmpty = false := by
    simpa [List.isEmpty_iff] using hne
  rw [h1, h2]
  simp only [Bool.false_eq_true, if_false]
  rw [ingestAccum_eq, ingestAccum_eq, hcs]

theorem ingest_skips_zero_chunk_doc_witness :
    chunk_markdown docBlank.text = []
    ∧ [docAlpha] ++ ([] : List Doc) ≠ []
    ∧ ingest (fun t => t.length) (fun _ => ([] : Str))
        ([docAlpha] ++ docBlank :: [])
      = ingest (fun t => t.length) (fun _ => ([] : Str)) ([docAlpha] ++ []) :=
  ⟨by decide, by decide,
   ingest_skips_zero_chunk_doc (fun t => t.length) (fun _ => ([] : Str))
     [docAlpha] [] docBlank (by decide) (by decide)⟩

